import Mathlib

/-!
Shallow embedding of the winit-blit pixel-buffer core
(`src/platform_impl/linux/mod.rs` and `src/platform_impl/linux/xlib.rs`).

Machine integers are modelled as `Nat` with explicit wrapping (`% 2^32`
for `u32`, `% 2^64` for 64-bit `usize`), matching Rust's release
(wrap-on-overflow) semantics.  Native X11 calls (`XGetVisualInfo`,
`XCreateImage`, `XPutImage`, ...) are external collaborators: the blit
path is modelled up to the exact native call it issues (`BlitStep`), and
the process-wide `XLIB_CONTEXT` once-cell is modelled as an explicit
state-passing step function.  Only the `x11` backend is realized in the
source (the wayland backend's constructor is `todo!()`), so the facade's
backend is the Xlib pixel buffer.
-/

namespace WinitBlit

/-- Wrap a natural number to `u32` range (Rust release-mode overflow). -/
def u32 (n : Nat) : Nat := n % 2 ^ 32

/-- Wrap a natural number to 64-bit `usize` range. -/
def usizeW (n : Nat) : Nat := n % 2 ^ 64

/-- Wrapping `u32` subtraction `a - b` for `a, b < 2^32`
(Rust release-mode underflow wraps modulo `2^32`). -/
def u32sub (a b : Nat) : Nat := (2 ^ 32 + a - b) % 2 ^ 32

/-- `PixelBufferFormatType` from the crate root: the four channel layouts
used by the platform code (`xlib.rs` matches exactly these variants). -/
inductive PixelBufferFormatType
  | BGR
  | BGRA
  | RGB
  | RGBA
deriving DecidableEq

/-- `pixel_byte_count` match from `xlib.rs` lines 107-112. -/
def pixelByteCount : PixelBufferFormatType → Nat
  | .BGR => 3
  | .BGRA => 4
  | .RGB => 3
  | .RGBA => 4

/-- `raw_window_handle::unix::XlibHandle`: window id and display pointer
(the pointer is modelled by its address as a `Nat`). -/
structure XlibHandle where
  window : Nat
  display : Nat
deriving DecidableEq

/-- `raw_window_handle::RawWindowHandle`, restricted to the tags the
dispatch in `mod.rs` distinguishes: `Xlib`, `Xcb`, `Wayland`, and a
representative non-unix tag (`Win32`) covered by the catch-all arm. -/
inductive RawWindowHandle
  | Xlib (h : XlibHandle)
  | Xcb (window : Nat) (connection : Nat)
  | Wayland (surface : Nat) (display : Nat)
  | Win32 (hwnd : Nat)
deriving DecidableEq

/-- Whether a handle carries the Xlib tag (the only realized backend). -/
def RawWindowHandle.isXlib : RawWindowHandle → Bool
  | .Xlib _ => true
  | _ => false

namespace Xlib

/-- `xlib::PixelBuffer` (`xlib.rs` lines 54-61): the CPU byte buffer plus
its dimensions and per-pixel byte count.  The `image` pointer and the
`&'static XlibContext` are native resources and carry no pure state beyond
what the context model below captures. -/
structure PixelBuffer where
  buf : List Nat
  width : Nat
  height : Nat
  pixel_byte_count : Nat
deriving DecidableEq

/-- Pure core of `xlib::PixelBuffer::new` (`xlib.rs` lines 107-113):
`pixel_byte_count` from the format and a zero-filled buffer of
`pixel_byte_count * width * height` bytes.  The two `u32` multiplications
are evaluated left-to-right, each wrapping modulo `2^32`.  The native
visual negotiation and `XCreateImage` are external collaborators. -/
def PixelBuffer.new (width height : Nat) (format : PixelBufferFormatType) :
    PixelBuffer :=
  let pbc := pixelByteCount format
  { buf := List.replicate (u32 (u32 (pbc * width) * height)) 0
    width := width
    height := height
    pixel_byte_count := pbc }

/-- `xlib::PixelBuffer::bytes` (`xlib.rs` lines 206-208). -/
def PixelBuffer.bytes (pb : PixelBuffer) : List Nat := pb.buf

/-- `xlib::PixelBuffer::bytes_per_pixel` (`xlib.rs` lines 190-192);
the `u32 → usize` conversion never fails. -/
def PixelBuffer.bytes_per_pixel (pb : PixelBuffer) : Nat := pb.pixel_byte_count

/-- `xlib::PixelBuffer::row_len` (`xlib.rs` lines 198-200):
`pixel_byte_count * width` as a wrapping `u32` product. -/
def PixelBuffer.row_len (pb : PixelBuffer) : Nat :=
  u32 (pb.pixel_byte_count * pb.width)

end Xlib

/-- The arguments of the `XPutImage` call issued by
`xlib::PixelBuffer::blit_rect` (`xlib.rs` lines 161-172); the gc and
image pointer are native state owned by the context and the buffer. -/
structure NativeBlitCall where
  display : Nat
  window : Nat
  src_x : Nat
  src_y : Nat
  dst_x : Nat
  dst_y : Nat
  blit_w : Nat
  blit_h : Nat
deriving DecidableEq

/-- Outcome of the pure prefix of a blit call: either the native
`XPutImage` invocation it performs, an early `io::Error` return
(handle mismatch, no native call), or a Rust panic (a failed
`try_into().unwrap()` coordinate conversion). -/
inductive BlitStep
  | nativeCall (c : NativeBlitCall)
  | mismatch (msg : String)
  | panicked
deriving DecidableEq

/-- `xlib::PixelBuffer::blit_rect` up to the native call
(`xlib.rs` lines 154-174): each of the four position coordinates is
converted `u32 → i32` by `try_into().unwrap()`, panicking at `2^31` or
above; the blit size is passed through unconverted. -/
def Xlib.PixelBuffer.blitRectStep (_pb : Xlib.PixelBuffer)
    (src_pos dst_pos blit_size : Nat × Nat) (handle : XlibHandle) : BlitStep :=
  if src_pos.1 < 2 ^ 31 ∧ src_pos.2 < 2 ^ 31 ∧
      dst_pos.1 < 2 ^ 31 ∧ dst_pos.2 < 2 ^ 31 then
    .nativeCall
      { display := handle.display
        window := handle.window
        src_x := src_pos.1
        src_y := src_pos.2
        dst_x := dst_pos.1
        dst_y := dst_pos.2
        blit_w := blit_size.1
        blit_h := blit_size.2 }
  else .panicked

/-- Translation of the `XPutImage` return code into the `io::Error`
returned by `xlib::PixelBuffer::blit_rect` (`xlib.rs` lines 175-187).
X protocol codes: `Success = 0`, `BadValue = 2`, `BadMatch = 8`,
`BadDrawable = 9`, `BadGC = 13`. -/
def interpretPutImage (result : Nat) : Except String Unit :=
  if result = 0 then .ok ()
  else
    .error
      (if result = 9 then "BadDrawable"
       else if result = 13 then "BadGC"
       else if result = 8 then "BadMatch"
       else if result = 2 then "BadValue"
       else "Unknown error")

/-- The facade `PixelBuffer` (`mod.rs` lines 13-22).  Only the `x11`
backend compiles and is realized (the wayland module's constructor is
`todo!()` and its struct name does not match its use site), so the
backend is the Xlib pixel buffer. -/
structure PixelBuffer where
  backend : Xlib.PixelBuffer
deriving DecidableEq

/-- Outcome of the facade constructor dispatch (`mod.rs` lines 31-53):
either a constructed buffer or a Rust `panic!`. -/
inductive NewResult
  | ok (pb : PixelBuffer)
  | panicked (msg : String)
deriving DecidableEq

/-- Whether the constructor outcome is a Rust panic. -/
def NewResult.isPanicked : NewResult → Bool
  | .ok _ => false
  | .panicked _ => true

/-- Facade `PixelBuffer::new` dispatch (`mod.rs` lines 31-53): an `Xlib`
handle constructs the Xlib backend; an `Xcb` handle panics with
"XCB is currently not supported!"; every other tag hits the catch-all
`panic!("Unsupported window handle type: ...")` arm. -/
def PixelBuffer.new (width height : Nat) (format : PixelBufferFormatType)
    (raw_window_handle : RawWindowHandle) : NewResult :=
  match raw_window_handle with
  | .Xlib _ => .ok { backend := Xlib.PixelBuffer.new width height format }
  | .Xcb _ _ => .panicked "XCB is currently not supported!"
  | _ => .panicked "Unsupported window handle type"

/-- The buffer constructed through the Xlib arm of `PixelBuffer::new`. -/
def mkPixelBuffer (width height : Nat) (format : PixelBufferFormatType) :
    PixelBuffer :=
  { backend := Xlib.PixelBuffer.new width height format }

/-- Facade `PixelBuffer::width` (`mod.rs` lines 100-107). -/
def PixelBuffer.width (pb : PixelBuffer) : Nat := pb.backend.width

/-- Facade `PixelBuffer::height` (`mod.rs` lines 118-125). -/
def PixelBuffer.height (pb : PixelBuffer) : Nat := pb.backend.height

/-- Facade `PixelBuffer::bytes_per_pixel` (`mod.rs` lines 91-98). -/
def PixelBuffer.bytes_per_pixel (pb : PixelBuffer) : Nat :=
  pb.backend.bytes_per_pixel

/-- Facade `PixelBuffer::bits_per_pixel` (`mod.rs` lines 87-89). -/
def PixelBuffer.bits_per_pixel (pb : PixelBuffer) : Nat :=
  pb.bytes_per_pixel * 8

/-- Facade `PixelBuffer::row_len` (`mod.rs` lines 109-116). -/
def PixelBuffer.row_len (pb : PixelBuffer) : Nat := pb.backend.row_len

/-- Facade `PixelBuffer::bytes` (`mod.rs` lines 127-134). -/
def PixelBuffer.bytes (pb : PixelBuffer) : List Nat := pb.backend.bytes

/-- `PixelBuffer::tlo_to_blo` (`mod.rs` lines 209-211):
`self.height() - 1 - tlo_row` with wrapping `u32` subtraction. -/
def PixelBuffer.tlo_to_blo (pb : PixelBuffer) (tlo_row : Nat) : Nat :=
  u32sub (u32sub pb.height 1) tlo_row

/-- Rust `slice::get(i..j)`: `Some` of the subslice iff `i ≤ j ≤ len`. -/
def sliceGet (l : List Nat) (i j : Nat) : Option (List Nat) :=
  if i ≤ j ∧ j ≤ l.length then some ((l.drop i).take (j - i)) else none

/-- `PixelBuffer::row` (`mod.rs` lines 145-149): `index` is
`tlo_to_blo(row) as usize * row_len()`, `pixel_len` is
`width() as usize * bytes_per_pixel()` (64-bit wrapping products), and
the result is `bytes().get(index..index + pixel_len)`. -/
def PixelBuffer.row (pb : PixelBuffer) (row : Nat) : Option (List Nat) :=
  sliceGet pb.bytes (usizeW (pb.tlo_to_blo row * pb.row_len))
    (usizeW (usizeW (pb.tlo_to_blo row * pb.row_len) +
      usizeW (pb.width * pb.bytes_per_pixel)))

/-- `PixelBuffer::row_mut` (`mod.rs` lines 151-155): same index math as
`row`, through `bytes_mut().get_mut`; the addressed byte range is
returned. -/
def PixelBuffer.row_mut (pb : PixelBuffer) (row : Nat) : Option (List Nat) :=
  sliceGet pb.bytes (usizeW (pb.tlo_to_blo row * pb.row_len))
    (usizeW (usizeW (pb.tlo_to_blo row * pb.row_len) +
      usizeW (pb.width * pb.bytes_per_pixel)))

/-- Fuel-indexed core of Rust `slice::chunks` (fuel at least the list
length makes it total; the callers pass `l.length`). -/
def chunksOfAux (k : Nat) : Nat → List Nat → List (List Nat)
  | _, [] => []
  | 0, _ => []
  | fuel + 1, l => l.take k :: chunksOfAux k fuel (l.drop k)

/-- Rust `slice::chunks(k)`: successive chunks of `k` bytes, the last one
possibly shorter. -/
def chunksOf (k : Nat) (l : List Nat) : List (List Nat) :=
  chunksOfAux k l.length l

/-- Rust `&chunk[..pixel_len]`: `Some` of the prefix when it is in
bounds, `none` modelling the slicing panic otherwise. -/
def takeExact (pixel_len : Nat) (chunk : List Nat) : Option (List Nat) :=
  if pixel_len ≤ chunk.length then some (chunk.take pixel_len) else none

/-- Collect a list of options, propagating a panic (`none`). -/
def seqOption {α : Type} : List (Option α) → Option (List α)
  | [] => some []
  | none :: _ => none
  | some a :: rest => (seqOption rest).map (a :: ·)

/-- `PixelBuffer::rows` (`mod.rs` lines 157-167): chunk the buffer by the
stride (`row_len`, replaced by 1 when zero), reverse to top-to-bottom
visual order, and take the `pixel_len` prefix of each chunk. -/
def PixelBuffer.rows (pb : PixelBuffer) : Option (List (List Nat)) :=
  seqOption
    (((chunksOf (if pb.row_len = 0 then 1 else pb.row_len) pb.bytes).reverse).map
      (takeExact (usizeW (pb.width * pb.bytes_per_pixel))))

/-- Facade `PixelBuffer::blit_rect` (`mod.rs` lines 59-85): a non-Xlib
handle returns the `io::ErrorKind::InvalidInput` mismatch error before
any native work; an Xlib handle delegates to the backend. -/
def PixelBuffer.blit_rect (pb : PixelBuffer) (src_pos dst_pos blit_size : Nat × Nat)
    (handle : RawWindowHandle) : BlitStep :=
  match handle with
  | .Xlib h => pb.backend.blitRectStep src_pos dst_pos blit_size h
  | _ => .mismatch "Expected Xlib handle, got an XCB handle"

/-- Facade `PixelBuffer::blit` (`mod.rs` lines 55-57). -/
def PixelBuffer.blit (pb : PixelBuffer) (handle : RawWindowHandle) : BlitStep :=
  pb.blit_rect (0, 0) (0, 0) (pb.width, pb.height) handle

/-- A single byte store through a slice returned by `bytes_mut`,
`row_mut` or `rows_mut`: slice writes are bounds-checked by the type
system, so every mutation of the buffer is a sequence of in-range
element writes; `List.set` is the no-op-out-of-range version. -/
def setByte (pb : PixelBuffer) (i v : Nat) : PixelBuffer :=
  { backend := { pb.backend with buf := pb.backend.buf.set i v } }

/-- A sequence of byte writes applied to a buffer. -/
def applyWrites (pb : PixelBuffer) (ws : List (Nat × Nat)) : PixelBuffer :=
  ws.foldl (fun b iv => setByte b iv.1 iv.2) pb

/-- Physical (bottom-to-top) row `k` of the backing buffer: the `k`-th
stride-sized segment of `bytes()`. -/
def physicalRow (pb : PixelBuffer) (k : Nat) : List Nat :=
  (pb.bytes.drop (k * pb.row_len)).take pb.row_len

/-- Invariant satisfied by every buffer whose construction did not
overflow the `u32` size arithmetic (checked in debug builds): `u32`-sized
dimensions, a format-derived byte count, non-overflowing
`pixel_byte_count * width` and `pixel_byte_count * width * height`
products, and the length equation for the backing buffer. -/
def Inv (pb : PixelBuffer) : Prop :=
  pb.width < 2 ^ 32 ∧ pb.height < 2 ^ 32 ∧
    0 < pb.bytes_per_pixel ∧ pb.bytes_per_pixel ≤ 4 ∧
    pb.bytes_per_pixel * pb.width < 2 ^ 32 ∧
    pb.bytes_per_pixel * pb.width * pb.height < 2 ^ 32 ∧
    pb.bytes.length = pb.bytes_per_pixel * pb.width * pb.height

/-- `XlibContext` (`xlib.rs` lines 12-18): the stored display identity
(the pointer address); `xlib`, `screen`, `depth` and `gc` are native
resources derived from it. -/
structure XlibContext where
  display : Nat
deriving DecidableEq

/-- Result of `XlibContext::get`: the context reference, or the panic of
the failed `assert!(context.display == display)`. -/
inductive GetResult
  | ok (ctx : XlibContext)
  | panicked
deriving DecidableEq

/-- `XlibContext::get` (`xlib.rs` lines 21-25) as a step function on the
process-wide `XLIB_CONTEXT` once-cell (`none` = uninitialized):
`get_or_try_init` initializes the single cell from the first display it
ever sees, then `assert!(context.display == display)` panics whenever a
later call presents a different display.  `Xlib::open` failure is a
native condition outside this model. -/
def XlibContext.get (cell : Option XlibContext) (display : Nat) :
    GetResult × Option XlibContext :=
  match cell with
  | none =>
    let ctx : XlibContext := { display := display }
    (.ok ctx, some ctx)
  | some ctx =>
    if ctx.display = display then (.ok ctx, some ctx)
    else (.panicked, some ctx)

end WinitBlit

namespace WinitBlit

theorem u32_eq_of_lt {n : Nat} (h : n < 2 ^ 32) : u32 n = n := Nat.mod_eq_of_lt h

theorem usizeW_eq_of_lt {n : Nat} (h : n < 2 ^ 64) : usizeW n = n := Nat.mod_eq_of_lt h

theorem u32_lt (n : Nat) : u32 n < 2 ^ 32 := Nat.mod_lt _ (by norm_num)

theorem u32sub_lt (a b : Nat) : u32sub a b < 2 ^ 32 := Nat.mod_lt _ (by norm_num)

theorem mul_lt_two_pow_64 {a b : Nat} (ha : a < 2 ^ 32) (hb : b < 2 ^ 32) :
    a * b < 2 ^ 64 := by
  calc a * b ≤ (2 ^ 32 - 1) * (2 ^ 32 - 1) := Nat.mul_le_mul (by omega) (by omega)
    _ < 2 ^ 64 := by norm_num

theorem u32sub_of_le {a b : Nat} (ha : a < 2 ^ 32) (hba : b ≤ a) : u32sub a b = a - b := by
  unfold u32sub
  have h1 : 2 ^ 32 + a - b = 2 ^ 32 + (a - b) := by omega
  rw [h1, Nat.add_mod_left]
  exact Nat.mod_eq_of_lt (by omega)

theorem u32sub_of_lt {a b : Nat} (hb : b ≤ 2 ^ 32) (hab : a < b) :
    u32sub a b = 2 ^ 32 + a - b := by
  unfold u32sub
  exact Nat.mod_eq_of_lt (by omega)

theorem chunksOfAux_nil (k fuel : Nat) : chunksOfAux k fuel [] = [] := by
  cases fuel <;> rfl

theorem chunksOfAux_cons_succ (k fuel : Nat) (x : Nat) (xs : List Nat) :
    chunksOfAux k (fuel + 1) (x :: xs) =
      (x :: xs).take k :: chunksOfAux k fuel ((x :: xs).drop k) := rfl

theorem chunksOfAux_spec (R : Nat) (hR : 0 < R) :
    ∀ (h fuel : Nat) (l : List Nat), l.length = h * R → h ≤ fuel →
      chunksOfAux R fuel l = (List.range h).map fun i => (l.drop (i * R)).take R
  | 0, fuel, l, hl, _ => by
      have hnil : l = [] := List.length_eq_zero.mp (by simpa using hl)
      subst hnil
      simp [chunksOfAux_nil]
  | h + 1, fuel, l, hl, hf => by
      obtain ⟨f, rfl⟩ : ∃ f, fuel = f + 1 := ⟨fuel - 1, by omega⟩
      have hmul : (h + 1) * R = h * R + R := Nat.succ_mul h R
      have hlpos : 0 < l.length := by rw [hl]; omega
      obtain ⟨x, xs, rfl⟩ : ∃ x xs, l = x :: xs := by
        cases l with
        | nil => simp at hlpos
        | cons x xs => exact ⟨x, xs, rfl⟩
      rw [chunksOfAux_cons_succ]
      have hdrop : ((x :: xs).drop R).length = h * R := by
        simp only [List.length_drop]
        omega
      rw [chunksOfAux_spec R hR h f ((x :: xs).drop R) hdrop (by omega)]
      rw [List.range_succ_eq_map, List.map_cons, List.map_map]
      refine congrArg₂ List.cons (by simp) ?_
      refine List.map_congr_left fun i _ => ?_
      simp only [Function.comp_apply, List.drop_drop]
      have harg : R + i * R = Nat.succ i * R := by
        have := Nat.succ_mul i R
        omega
      rw [harg]

theorem chunksOf_exact (R h : Nat) (l : List Nat) (hR : 0 < R) (hl : l.length = h * R) :
    chunksOf R l = (List.range h).map fun i => (l.drop (i * R)).take R :=
  chunksOfAux_spec R hR h l.length l hl
    (by rw [hl]; exact Nat.le_mul_of_pos_right h hR)

theorem chunksOfAux_flatten (k : Nat) (hk : 0 < k) :
    ∀ (fuel : Nat) (l : List Nat), l.length ≤ fuel → (chunksOfAux k fuel l).flatten = l
  | 0, l, hl => by
      have hnil : l = [] := List.length_eq_zero.mp (by omega)
      subst hnil
      simp [chunksOfAux_nil]
  | fuel + 1, l, hl => by
      cases l with
      | nil => simp [chunksOfAux_nil]
      | cons x xs =>
        rw [chunksOfAux_cons_succ, List.flatten_cons]
        rw [chunksOfAux_flatten k hk fuel ((x :: xs).drop k)
          (by simp only [List.length_drop]; omega)]
        exact List.take_append_drop k (x :: xs)

theorem chunksOf_flatten (k : Nat) (l : List Nat) (hk : 0 < k) :
    (chunksOf k l).flatten = l :=
  chunksOfAux_flatten k hk l.length l le_rfl

theorem seqOption_map_some {α β : Type} (f : α → Option β) (g : α → β) :
    ∀ l : List α, (∀ x ∈ l, f x = some (g x)) → seqOption (l.map f) = some (l.map g)
  | [], _ => rfl
  | x :: xs, H => by
      rw [List.map_cons, H x (List.mem_cons_self x xs)]
      show (seqOption (xs.map f)).map ((g x) :: ·) = some ((x :: xs).map g)
      rw [seqOption_map_some f g xs (fun y hy => H y (List.mem_cons_of_mem x hy))]
      rfl

end WinitBlit

namespace WinitBlit

theorem row_unfold (pb : PixelBuffer)
    (hw32 : pb.width < 2 ^ 32) (hcw : pb.bytes_per_pixel * pb.width < 2 ^ 32) (n : Nat) :
    pb.row n = sliceGet pb.bytes (pb.tlo_to_blo n * pb.row_len)
      (pb.tlo_to_blo n * pb.row_len + pb.width * pb.bytes_per_pixel) := by
  have ha : pb.tlo_to_blo n * pb.row_len < 2 ^ 64 :=
    mul_lt_two_pow_64 (u32sub_lt _ _) (u32_lt _)
  have hpl : pb.width * pb.bytes_per_pixel < 2 ^ 32 := by
    rw [Nat.mul_comm]; exact hcw
  have hb1 : pb.width * pb.bytes_per_pixel < 2 ^ 64 := lt_trans hpl (by norm_num)
  have ht1 : pb.tlo_to_blo n < 2 ^ 32 := u32sub_lt _ _
  have ht2 : pb.row_len < 2 ^ 32 := u32_lt _
  have hc1 : pb.tlo_to_blo n * pb.row_len ≤ (2 ^ 32 - 1) * (2 ^ 32 - 1) :=
    Nat.mul_le_mul (by omega) (by omega)
  unfold PixelBuffer.row
  rw [usizeW_eq_of_lt ha, usizeW_eq_of_lt hb1, usizeW_eq_of_lt (by omega)]

theorem row_mut_eq_row (pb : PixelBuffer) (n : Nat) : pb.row_mut n = pb.row n := rfl

theorem row_eq_some (pb : PixelBuffer) (hInv : Inv pb) (n : Nat) (hn : n < pb.height) :
    pb.row n = some ((pb.bytes.drop ((pb.height - 1 - n) * pb.row_len)).take pb.row_len) := by
  obtain ⟨hw32, hh32, hc0, hc4, hcw, hcwh, hlen⟩ := hInv
  rw [row_unfold pb hw32 hcw n]
  obtain ⟨⟨buf, w, h, c⟩⟩ := pb
  simp only [PixelBuffer.width, PixelBuffer.height, PixelBuffer.bytes_per_pixel,
    PixelBuffer.bytes, PixelBuffer.row_len, PixelBuffer.tlo_to_blo,
    Xlib.PixelBuffer.bytes, Xlib.PixelBuffer.bytes_per_pixel,
    Xlib.PixelBuffer.row_len] at *
  have h1 : u32 (c * w) = c * w := u32_eq_of_lt hcw
  have h2 : u32sub h 1 = h - 1 := u32sub_of_le hh32 (by omega)
  have h3 : u32sub (h - 1) n = h - 1 - n := u32sub_of_le (by omega) (by omega)
  rw [h1, h2, h3]
  have h6 : (h - 1 - n) * (c * w) + w * c = (h - n) * (c * w) := by
    have hsm : (h - n) * (c * w) = (h - 1 - n) * (c * w) + (c * w) := by
      have hx : h - n = (h - 1 - n) + 1 := by omega
      rw [hx, Nat.succ_mul]
    rw [hsm, Nat.mul_comm w c]
  have h7 : (h - n) * (c * w) ≤ c * w * h := by
    calc (h - n) * (c * w) ≤ h * (c * w) := Nat.mul_le_mul_right _ (by omega)
      _ = c * w * h := Nat.mul_comm h (c * w)
  unfold sliceGet
  rw [if_pos ?hc]
  case hc =>
    refine ⟨by omega, ?_⟩
    rw [hlen]
    omega
  congr 1
  have hwc : w * c = c * w := Nat.mul_comm w c
  have h8 : (h - 1 - n) * (c * w) + w * c - (h - 1 - n) * (c * w) = c * w := by
    omega
  rw [h8]

theorem row_some_length (pb : PixelBuffer) (hInv : Inv pb) (n : Nat) (hn : n < pb.height) :
    ∃ s, pb.row n = some s ∧ s.length = pb.width * pb.bytes_per_pixel := by
  refine ⟨_, row_eq_some pb hInv n hn, ?_⟩
  obtain ⟨hw32, hh32, hc0, hc4, hcw, hcwh, hlen⟩ := hInv
  obtain ⟨⟨buf, w, h, c⟩⟩ := pb
  simp only [PixelBuffer.width, PixelBuffer.height, PixelBuffer.bytes_per_pixel,
    PixelBuffer.bytes, PixelBuffer.row_len, Xlib.PixelBuffer.bytes,
    Xlib.PixelBuffer.bytes_per_pixel, Xlib.PixelBuffer.row_len] at *
  have h1 : u32 (c * w) = c * w := u32_eq_of_lt hcw
  rw [h1]
  simp only [List.length_take, List.length_drop]
  rw [hlen]
  have h7 : (h - n) * (c * w) ≤ c * w * h := by
    calc (h - n) * (c * w) ≤ h * (c * w) := Nat.mul_le_mul_right _ (by omega)
      _ = c * w * h := Nat.mul_comm h (c * w)
  have hsm : (h - n) * (c * w) = (h - 1 - n) * (c * w) + (c * w) := by
    have hx : h - n = (h - 1 - n) + 1 := by omega
    rw [hx, Nat.succ_mul]
  have hwc : w * c = c * w := Nat.mul_comm w c
  omega

theorem row_eq_none (pb : PixelBuffer) (hInv : Inv pb) (n : Nat) (hn32 : n < 2 ^ 32)
    (hwpos : 0 < pb.width) (hn : pb.height ≤ n) : pb.row n = none := by
  obtain ⟨hw32, hh32, hc0, hc4, hcw, hcwh, hlen⟩ := hInv
  rw [row_unfold pb hw32 hcw n]
  obtain ⟨⟨buf, w, h, c⟩⟩ := pb
  simp only [PixelBuffer.width, PixelBuffer.height, PixelBuffer.bytes_per_pixel,
    PixelBuffer.bytes, PixelBuffer.row_len, PixelBuffer.tlo_to_blo,
    Xlib.PixelBuffer.bytes, Xlib.PixelBuffer.bytes_per_pixel,
    Xlib.PixelBuffer.row_len] at *
  have h1 : u32 (c * w) = c * w := u32_eq_of_lt hcw
  rw [h1]
  have hcwpos : 0 < c * w := Nat.mul_pos hc0 hwpos
  have htlo : u32sub (u32sub h 1) n ≥ h := by
    by_cases hh : h = 0
    · subst hh
      have h2 : u32sub 0 1 = 2 ^ 32 - 1 := by
        rw [u32sub_of_lt (by norm_num) (by norm_num)]
        omega
      rw [h2, u32sub_of_le (by omega) (by omega)]
      omega
    · have h2 : u32sub h 1 = h - 1 := u32sub_of_le hh32 (by omega)
      rw [h2, u32sub_of_lt (by omega) (by omega)]
      omega
  unfold sliceGet
  rw [if_neg ?hc]
  case hc =>
    rintro ⟨_, hub⟩
    rw [hlen] at hub
    have hge : u32sub (u32sub h 1) n * (c * w) ≥ h * (c * w) :=
      Nat.mul_le_mul_right _ htlo
    have heq : c * w * h = h * (c * w) := Nat.mul_comm (c * w) h
    have hwc : w * c = c * w := Nat.mul_comm w c
    omega

theorem row_zero_width (pb : PixelBuffer) (hInv : Inv pb) (n : Nat)
    (hw0 : pb.width = 0) : pb.row n = some [] := by
  obtain ⟨hw32, hh32, hc0, hc4, hcw, hcwh, hlen⟩ := hInv
  rw [row_unfold pb hw32 hcw n]
  obtain ⟨⟨buf, w, h, c⟩⟩ := pb
  simp only [PixelBuffer.width, PixelBuffer.height, PixelBuffer.bytes_per_pixel,
    PixelBuffer.bytes, PixelBuffer.row_len, PixelBuffer.tlo_to_blo,
    Xlib.PixelBuffer.bytes, Xlib.PixelBuffer.bytes_per_pixel,
    Xlib.PixelBuffer.row_len] at *
  subst hw0
  simp [sliceGet, u32]

end WinitBlit

namespace WinitBlit

theorem rows_eq_of_pos (pb : PixelBuffer) (hInv : Inv pb) (hw : 0 < pb.width) :
    pb.rows = some ((chunksOf pb.row_len pb.bytes).reverse) := by
  obtain ⟨hw32, hh32, hc0, hc4, hcw, hcwh, hlen⟩ := hInv
  have hrl : pb.row_len = pb.bytes_per_pixel * pb.width := u32_eq_of_lt hcw
  have hRpos : 0 < pb.row_len := by
    rw [hrl]; exact Nat.mul_pos hc0 hw
  have hplval : usizeW (pb.width * pb.bytes_per_pixel) = pb.row_len := by
    rw [hrl, Nat.mul_comm pb.width pb.bytes_per_pixel]
    exact usizeW_eq_of_lt (lt_trans hcw (by norm_num))
  have hlen2 : pb.bytes.length = pb.height * pb.row_len := by
    rw [hlen, hrl]; ring
  have hchunks := chunksOf_exact pb.row_len pb.height pb.bytes hRpos hlen2
  have hchunklen : ∀ i, i < pb.height →
      ((pb.bytes.drop (i * pb.row_len)).take pb.row_len).length = pb.row_len := by
    intro i hi
    simp only [List.length_take, List.length_drop]
    rw [hlen2]
    have h2 : (i + 1) * pb.row_len ≤ pb.height * pb.row_len :=
      Nat.mul_le_mul_right _ (by omega)
    have h3 : (i + 1) * pb.row_len = i * pb.row_len + pb.row_len := Nat.succ_mul i _
    omega
  unfold PixelBuffer.rows
  rw [if_neg (by omega), hchunks]
  have hmem : ∀ x ∈ ((List.range pb.height).map fun i =>
      ((pb.bytes.drop (i * pb.row_len)).take pb.row_len)).reverse,
      takeExact (usizeW (pb.width * pb.bytes_per_pixel)) x = some (id x) := by
    intro x hx
    rw [List.mem_reverse] at hx
    obtain ⟨i, hi, hxeq⟩ := List.mem_map.mp hx
    rw [List.mem_range] at hi
    have hxl : x.length = pb.row_len := by
      rw [← hxeq]; exact hchunklen i hi
    unfold takeExact
    rw [hplval, hxl, if_pos le_rfl, ← hxl, List.take_length, id]
  calc seqOption (((List.range pb.height).map fun i =>
        ((pb.bytes.drop (i * pb.row_len)).take pb.row_len)).reverse.map
        (takeExact (usizeW (pb.width * pb.bytes_per_pixel))))
      = some ((((List.range pb.height).map fun i =>
          ((pb.bytes.drop (i * pb.row_len)).take pb.row_len)).reverse).map id) :=
        seqOption_map_some _ id _ hmem
    _ = _ := by rw [List.map_id]

theorem rows_zero_width (pb : PixelBuffer) (hInv : Inv pb) (hw0 : pb.width = 0) :
    pb.rows = some [] := by
  obtain ⟨hw32, hh32, hc0, hc4, hcw, hcwh, hlen⟩ := hInv
  have hb : pb.bytes = [] := by
    refine List.length_eq_zero.mp ?_
    rw [hlen, hw0]
    ring
  unfold PixelBuffer.rows
  rw [hb]
  simp [chunksOf, chunksOfAux_nil, seqOption]

theorem Inv_mk (w h : Nat) (fmt : PixelBufferFormatType)
    (hw : w < 2 ^ 32) (hh : h < 2 ^ 32)
    (h1 : pixelByteCount fmt * w < 2 ^ 32) (h2 : pixelByteCount fmt * w * h < 2 ^ 32) :
    Inv (mkPixelBuffer w h fmt) := by
  have hc0 : 0 < pixelByteCount fmt := by cases fmt <;> norm_num [pixelByteCount]
  have hc4 : pixelByteCount fmt ≤ 4 := by cases fmt <;> norm_num [pixelByteCount]
  refine ⟨hw, hh, hc0, hc4, h1, h2, ?_⟩
  show (List.replicate (u32 (u32 (pixelByteCount fmt * w) * h)) 0).length = _
  rw [List.length_replicate, u32_eq_of_lt h1, u32_eq_of_lt h2]
  rfl

theorem mk_bytes_length (w h : Nat) (fmt : PixelBufferFormatType)
    (h2 : pixelByteCount fmt * w * h < 2 ^ 32) :
    (mkPixelBuffer w h fmt).bytes.length = pixelByteCount fmt * w * h := by
  show (List.replicate (u32 (u32 (pixelByteCount fmt * w) * h)) 0).length = _
  rw [List.length_replicate]
  by_cases hh : h = 0
  · subst hh
    simp [u32]
  · have h1 : pixelByteCount fmt * w < 2 ^ 32 := by
      have hle : pixelByteCount fmt * w ≤ pixelByteCount fmt * w * h :=
        Nat.le_mul_of_pos_right _ (by omega)
      omega
    rw [u32_eq_of_lt h1, u32_eq_of_lt h2]

theorem applyWrites_preserved :
    ∀ (ws : List (Nat × Nat)) (pb : PixelBuffer),
      (applyWrites pb ws).bytes.length = pb.bytes.length ∧
      (applyWrites pb ws).width = pb.width ∧
      (applyWrites pb ws).height = pb.height ∧
      (applyWrites pb ws).bytes_per_pixel = pb.bytes_per_pixel
  | [], _ => ⟨rfl, rfl, rfl, rfl⟩
  | (i, v) :: ws, pb => by
      obtain ⟨l1, l2, l3, l4⟩ := applyWrites_preserved ws (setByte pb i v)
      have he : applyWrites pb ((i, v) :: ws) = applyWrites (setByte pb i v) ws := rfl
      rw [he]
      refine ⟨?_, ?_, ?_, ?_⟩
      · rw [l1]
        simp [setByte, PixelBuffer.bytes, Xlib.PixelBuffer.bytes]
      · rw [l2]; rfl
      · rw [l3]; rfl
      · rw [l4]; rfl

theorem Inv_applyWrites (pb : PixelBuffer) (ws : List (Nat × Nat)) (hInv : Inv pb) :
    Inv (applyWrites pb ws) := by
  obtain ⟨hw32, hh32, hc0, hc4, hcw, hcwh, hlen⟩ := hInv
  obtain ⟨l1, l2, l3, l4⟩ := applyWrites_preserved ws pb
  exact ⟨by rw [l2]; exact hw32, by rw [l3]; exact hh32, by rw [l4]; exact hc0,
    by rw [l4]; exact hc4, by rw [l4, l2]; exact hcw, by rw [l4, l2, l3]; exact hcwh,
    by rw [l1, l4, l2, l3]; exact hlen⟩

end WinitBlit

namespace WinitBlit

instance (pb : PixelBuffer) : Decidable (Inv pb) := by
  unfold Inv
  infer_instance

/-- C1 counterexample: for a 4x4 RGBA buffer, `blit_rect` with source
rectangle `(2,2)+(8,8)` (which exceeds the 4x4 bounds) issues the native
`XPutImage` call with exactly those coordinates instead of returning an
`OutOfBounds` error before the native call. -/
theorem blit_rect_unchecked_cex :
    (mkPixelBuffer 4 4 .RGBA).width = 4 ∧ (mkPixelBuffer 4 4 .RGBA).height = 4 ∧
    (mkPixelBuffer 4 4 .RGBA).blit_rect (2, 2) (0, 0) (8, 8)
      (.Xlib ⟨5, 7⟩) = .nativeCall ⟨7, 5, 2, 2, 0, 0, 8, 8⟩ := by
  refine ⟨rfl, rfl, ?_⟩
  decide

/-- C1 (amended): `blit_rect` performs no bounds validation at all: for
every buffer, every Xlib-tagged handle and every rectangle whose four
position coordinates fit in `i32`, it issues the native `XPutImage` call
with the given coordinates — even when `src_pos + size` exceeds the
buffer bounds; no `OutOfBounds` error exists in the blit path. -/
theorem blit_rect_no_bounds_validation (pb : PixelBuffer)
    (src_pos dst_pos blit_size : Nat × Nat) (h : XlibHandle)
    (h1 : src_pos.1 < 2 ^ 31) (h2 : src_pos.2 < 2 ^ 31)
    (h3 : dst_pos.1 < 2 ^ 31) (h4 : dst_pos.2 < 2 ^ 31) :
    pb.blit_rect src_pos dst_pos blit_size (.Xlib h) =
      .nativeCall ⟨h.display, h.window, src_pos.1, src_pos.2, dst_pos.1, dst_pos.2,
        blit_size.1, blit_size.2⟩ := by
  show Xlib.PixelBuffer.blitRectStep pb.backend src_pos dst_pos blit_size h = _
  unfold Xlib.PixelBuffer.blitRectStep
  rw [if_pos ⟨h1, h2, h3, h4⟩]

/-- C1 witness: the amended theorem applied at a concrete out-of-bounds
rectangle on a 4x4 buffer. -/
theorem blit_rect_no_bounds_validation_witness :
    (2 : Nat) < 2 ^ 31 ∧
    (mkPixelBuffer 4 4 .RGBA).blit_rect (2, 3) (1, 0) (9, 9)
      (.Xlib ⟨5, 7⟩) = .nativeCall ⟨7, 5, 2, 3, 1, 0, 9, 9⟩ :=
  ⟨by decide, blit_rect_no_bounds_validation _ _ _ _ _
    (by decide) (by decide) (by decide) (by decide)⟩

/-- C2 counterexample: `new` with an XCB handle (and with a Win32 handle)
panics instead of returning an `UnsupportedHandle` error. -/
theorem new_unsupported_cex :
    PixelBuffer.new 4 4 .RGBA (.Xcb 1 2) = .panicked "XCB is currently not supported!" ∧
    PixelBuffer.new 4 4 .RGBA (.Win32 3) = .panicked "Unsupported window handle type" :=
  ⟨rfl, rfl⟩

/-- C2 (amended): for every (width, height, format) and every handle
whose tag has no realized backend (anything but Xlib), `new` panics
(`panic!("XCB is currently not supported!")` for XCB, the catch-all
`panic!("Unsupported window handle type: ...")` otherwise) rather than
returning an `UnsupportedHandle` error. -/
theorem new_unsupported_panics (w h : Nat) (fmt : PixelBufferFormatType)
    (hnd : RawWindowHandle) (hx : hnd.isXlib = false) :
    (PixelBuffer.new w h fmt hnd).isPanicked = true := by
  cases hnd with
  | Xlib hh => simp [RawWindowHandle.isXlib] at hx
  | Xcb a b => rfl
  | Wayland a b => rfl
  | Win32 a => rfl

/-- C2 witness: the amended theorem applied to an XCB handle. -/
theorem new_unsupported_panics_witness :
    RawWindowHandle.isXlib (.Xcb 1 2) = false ∧
    (PixelBuffer.new 1 1 .RGB (.Xcb 1 2)).isPanicked = true :=
  ⟨rfl, new_unsupported_panics 1 1 .RGB (.Xcb 1 2) rfl⟩

/-- C3 counterexample: for the constructed 0x0 RGBA buffer, `row 0` (with
`0 ≥ height = 0`) returns `some []`, not `None`, and `row_mut` likewise:
the wrapping `height - 1 - row` index degenerates to a `get(0..0)` that
succeeds on the empty buffer. -/
theorem row_out_of_range_cex :
    (mkPixelBuffer 0 0 .RGBA).height = 0 ∧
    (mkPixelBuffer 0 0 .RGBA).row 0 = some [] ∧
    (mkPixelBuffer 0 0 .RGBA).row_mut 0 = some [] := by
  decide

/-- C3 (amended): for every constructed buffer (invariant `Inv`) and
`u32` index `n`: `row n` (and `row_mut n`, which uses the same index
math) returns `Some` of a slice of length `width * bytes_per_pixel` when
`n < height`; when `n ≥ height` it returns `None` provided `width ≥ 1`;
but when `width = 0` it returns `some []` for every `n`, in-range or
not, instead of `None`. -/
theorem row_option_contract (pb : PixelBuffer) (hInv : Inv pb) (n : Nat)
    (hn32 : n < 2 ^ 32) :
    (n < pb.height → ∃ s, pb.row n = some s ∧
      s.length = pb.width * pb.bytes_per_pixel) ∧
    (0 < pb.width → pb.height ≤ n → pb.row n = none) ∧
    (pb.width = 0 → pb.row n = some []) ∧
    pb.row_mut n = pb.row n :=
  ⟨fun hn => row_some_length pb hInv n hn,
   fun hw hn => row_eq_none pb hInv n hn32 hw hn,
   fun hw0 => row_zero_width pb hInv n hw0,
   row_mut_eq_row pb n⟩

/-- C3 witness: the amended theorem applied to a 2x2 RGBA buffer at the
out-of-range index 5. -/
theorem row_option_contract_witness :
    Inv (mkPixelBuffer 2 2 .RGBA) ∧ (5 : Nat) < 2 ^ 32 ∧
    (mkPixelBuffer 2 2 .RGBA).row 5 = none :=
  ⟨by decide, by decide,
    (row_option_contract _ (by decide) 5 (by decide)).2.1 (by decide) (by decide)⟩

/-- C4: for every constructed buffer and every `n < height`, `row n` is
exactly physical (bottom-to-top) row `height - 1 - n` of `bytes()`: row 0
is the last physical row segment and row `height - 1` the first. -/
theorem row_physical_row (pb : PixelBuffer) (hInv : Inv pb) (n : Nat)
    (hn : n < pb.height) :
    pb.row n = some (physicalRow pb (pb.height - 1 - n)) :=
  row_eq_some pb hInv n hn

/-- C4 witness: the theorem applied to a 2x3 RGB buffer at row 1. -/
theorem row_physical_row_witness :
    Inv (mkPixelBuffer 2 3 .RGB) ∧ 1 < (mkPixelBuffer 2 3 .RGB).height ∧
    (mkPixelBuffer 2 3 .RGB).row 1 = some (physicalRow (mkPixelBuffer 2 3 .RGB) 1) :=
  ⟨by decide, by decide, row_physical_row _ (by decide) 1 (by decide)⟩

end WinitBlit

namespace WinitBlit

/-- C5 counterexample: the constructed 0x3 RGBA buffer has height 3, but
`rows()` yields 0 slices (its backing buffer is empty, so chunking
produces nothing), not `height` slices. -/
theorem rows_count_cex :
    ¬ ((mkPixelBuffer 0 3 .RGBA).rows.map List.length =
        some (mkPixelBuffer 0 3 .RGBA).height) := by
  decide

/-- C5 (amended): for every constructed buffer with `width ≥ 1`, `rows()`
yields exactly `height` slices, in order equal to
`row 0, row 1, ..., row (height-1)`, each of length exactly
`width * bytes_per_pixel`; but when `width = 0`, `rows()` yields 0 slices
regardless of `height`. -/
theorem rows_enumeration (pb : PixelBuffer) (hInv : Inv pb) :
    (0 < pb.width → ∃ rs, pb.rows = some rs ∧ rs.length = pb.height ∧
      (∀ r ∈ rs, r.length = pb.width * pb.bytes_per_pixel) ∧
      (∀ n, n < pb.height → rs[n]? = pb.row n)) ∧
    (pb.width = 0 → pb.rows = some []) := by
  constructor
  · intro hw
    have hInv2 := hInv
    obtain ⟨hw32, hh32, hc0, hc4, hcw, hcwh, hlen⟩ := hInv2
    have hrl : pb.row_len = pb.bytes_per_pixel * pb.width := u32_eq_of_lt hcw
    have hRpos : 0 < pb.row_len := by
      rw [hrl]; exact Nat.mul_pos hc0 hw
    have hlen2 : pb.bytes.length = pb.height * pb.row_len := by
      rw [hlen, hrl]; ring
    have hchunks := chunksOf_exact pb.row_len pb.height pb.bytes hRpos hlen2
    have hchunklen : ∀ i, i < pb.height →
        ((pb.bytes.drop (i * pb.row_len)).take pb.row_len).length = pb.row_len := by
      intro i hi
      simp only [List.length_take, List.length_drop]
      rw [hlen2]
      have h2 : (i + 1) * pb.row_len ≤ pb.height * pb.row_len :=
        Nat.mul_le_mul_right _ (by omega)
      have h3 : (i + 1) * pb.row_len = i * pb.row_len + pb.row_len := Nat.succ_mul i _
      omega
    refine ⟨(chunksOf pb.row_len pb.bytes).reverse,
      rows_eq_of_pos pb hInv hw, ?_, ?_, ?_⟩
    · rw [hchunks]
      simp
    · intro r hr
      rw [hchunks, List.mem_reverse] at hr
      obtain ⟨i, hi, hre⟩ := List.mem_map.mp hr
      rw [List.mem_range] at hi
      have hrlen : r.length = pb.row_len := by
        rw [← hre]; exact hchunklen i hi
      rw [hrlen, hrl, Nat.mul_comm]
    · intro n hn
      rw [hchunks]
      have hLlen : ((List.range pb.height).map fun i =>
          ((pb.bytes.drop (i * pb.row_len)).take pb.row_len)).length = pb.height := by
        simp
      rw [List.getElem?_reverse (by rw [hLlen]; exact hn), hLlen, List.getElem?_map]
      have hh1 : pb.height - 1 - n < pb.height := by omega
      rw [show (List.range pb.height)[pb.height - 1 - n]? = some (pb.height - 1 - n) by
        simp [List.getElem?_range, hh1]]
      simp only [Option.map_some']
      exact (row_eq_some pb hInv n hn).symm
  · exact fun hw0 => rows_zero_width pb hInv hw0

/-- C5 witness: the amended theorem applied to a 2x2 RGB buffer. -/
theorem rows_enumeration_witness :
    Inv (mkPixelBuffer 2 2 .RGB) ∧
    ((0 < (mkPixelBuffer 2 2 .RGB).width →
        ∃ rs, (mkPixelBuffer 2 2 .RGB).rows = some rs ∧
          rs.length = (mkPixelBuffer 2 2 .RGB).height ∧
          (∀ r ∈ rs, r.length =
            (mkPixelBuffer 2 2 .RGB).width * (mkPixelBuffer 2 2 .RGB).bytes_per_pixel) ∧
          (∀ n, n < (mkPixelBuffer 2 2 .RGB).height →
            rs[n]? = (mkPixelBuffer 2 2 .RGB).row n)) ∧
      ((mkPixelBuffer 2 2 .RGB).width = 0 → (mkPixelBuffer 2 2 .RGB).rows = some [])) :=
  ⟨by decide, rows_enumeration _ (by decide)⟩

/-- C6: for every (width, height, format) whose size product does not
overflow `u32`, the constructed buffer's `bytes()` has length exactly
`width * height * bytes_per_pixel`, and this length together with the
width and height is preserved by every subsequent sequence of byte
writes through the mutable accessors (`bytes_mut`, `row_mut`,
`rows_mut`); `blit`/`blit_rect` take the buffer by shared reference and
do not mutate it at all. -/
theorem buffer_length_invariant (w h : Nat) (fmt : PixelBufferFormatType)
    (hno : pixelByteCount fmt * w * h < 2 ^ 32) (ws : List (Nat × Nat)) :
    (applyWrites (mkPixelBuffer w h fmt) ws).bytes.length =
      w * h * pixelByteCount fmt ∧
    (applyWrites (mkPixelBuffer w h fmt) ws).width = w ∧
    (applyWrites (mkPixelBuffer w h fmt) ws).height = h := by
  obtain ⟨l1, l2, l3, _⟩ := applyWrites_preserved ws (mkPixelBuffer w h fmt)
  refine ⟨?_, ?_, ?_⟩
  · rw [l1, mk_bytes_length w h fmt hno]
    ring
  · rw [l2]; rfl
  · rw [l3]; rfl

/-- C6 witness: the theorem applied to a 4x4 RGBA buffer with one byte
write. -/
theorem buffer_length_invariant_witness :
    pixelByteCount .RGBA * 4 * 4 < 2 ^ 32 ∧
    ((applyWrites (mkPixelBuffer 4 4 .RGBA) [(0, 255)]).bytes.length =
        4 * 4 * pixelByteCount .RGBA ∧
      (applyWrites (mkPixelBuffer 4 4 .RGBA) [(0, 255)]).width = 4 ∧
      (applyWrites (mkPixelBuffer 4 4 .RGBA) [(0, 255)]).height = 4) :=
  ⟨by decide, buffer_length_invariant 4 4 .RGBA (by decide) [(0, 255)]⟩

/-- C7: for every constructed buffer and every handle, `blit handle` is
exactly `blit_rect (0,0) (0,0) (width, height) handle` — same result and
same effect (the same early error or the same native call). -/
theorem blit_is_blit_rect_full (pb : PixelBuffer) (handle : RawWindowHandle) :
    pb.blit handle = pb.blit_rect (0, 0) (0, 0) (pb.width, pb.height) handle := rfl

/-- C8: for every buffer (necessarily bound to the Xlib backend at
construction) and every later `blit` or `blit_rect` call presenting a
handle whose tag is not Xlib, the call returns the
`io::ErrorKind::InvalidInput` handle-mismatch error — a recoverable
early return before any native work, never a panic. -/
theorem blit_handle_mismatch (pb : PixelBuffer) (src_pos dst_pos blit_size : Nat × Nat)
    (hnd : RawWindowHandle) (hx : hnd.isXlib = false) :
    pb.blit_rect src_pos dst_pos blit_size hnd =
      .mismatch "Expected Xlib handle, got an XCB handle" ∧
    pb.blit hnd = .mismatch "Expected Xlib handle, got an XCB handle" := by
  cases hnd with
  | Xlib hh => simp [RawWindowHandle.isXlib] at hx
  | Xcb a b => exact ⟨rfl, rfl⟩
  | Wayland a b => exact ⟨rfl, rfl⟩
  | Win32 a => exact ⟨rfl, rfl⟩

/-- C8 witness: the theorem applied to a Wayland handle on an
Xlib-backed buffer. -/
theorem blit_handle_mismatch_witness :
    RawWindowHandle.isXlib (.Wayland 3 4) = false ∧
    ((mkPixelBuffer 1 1 .RGB).blit_rect (0, 0) (0, 0) (1, 1) (.Wayland 3 4) =
        .mismatch "Expected Xlib handle, got an XCB handle" ∧
      (mkPixelBuffer 1 1 .RGB).blit (.Wayland 3 4) =
        .mismatch "Expected Xlib handle, got an XCB handle") :=
  ⟨rfl, blit_handle_mismatch _ _ _ _ _ rfl⟩

/-- C9 counterexample: the context cache is a single process-wide cell,
not keyed by display: after a buffer is constructed against display 1,
requesting the context for distinct display 2 panics (the
`assert!(context.display == display)` fails) instead of yielding a valid
context for display 2. -/
theorem xlib_context_cex :
    (XlibContext.get (XlibContext.get none 1).2 2).1 = GetResult.panicked := rfl

/-- C9 (amended): the shared connection is initialized lazily at most
once process-wide (a single cell, not a per-display cache): the first
`get` stores the requested display and succeeds; every successful `get`
returns a context whose stored display equals the requested one; a `get`
for a display different from the cached one panics on the assert rather
than returning a foreign context; and the cell, once filled, is never
replaced. -/
theorem xlib_context_contract :
    (∀ d : Nat, XlibContext.get none d = (.ok ⟨d⟩, some ⟨d⟩)) ∧
    (∀ (cell : Option XlibContext) (d : Nat) (ctx : XlibContext)
        (cell2 : Option XlibContext),
        XlibContext.get cell d = (.ok ctx, cell2) → ctx.display = d) ∧
    (∀ (ctx : XlibContext) (d : Nat), ctx.display ≠ d →
        (XlibContext.get (some ctx) d).1 = .panicked) ∧
    (∀ (ctx : XlibContext) (d : Nat), (XlibContext.get (some ctx) d).2 = some ctx) := by
  refine ⟨fun d => rfl, ?_, ?_, ?_⟩
  · intro cell d ctx cell2 hget
    cases cell with
    | none =>
      have h1 : GetResult.ok (⟨d⟩ : XlibContext) = .ok ctx := congrArg Prod.fst hget
      injection h1 with h2
      rw [← h2]
    | some c0 =>
      by_cases he : c0.display = d
      · have h1 := congrArg Prod.fst hget
        simp only [XlibContext.get, he, if_pos] at h1
        injection h1 with h2
        rw [← h2]
        exact he
      · have h1 := congrArg Prod.fst hget
        simp [XlibContext.get, he] at h1
  · intro ctx d hne
    simp [XlibContext.get, hne]
  · intro ctx d
    unfold XlibContext.get
    by_cases he : ctx.display = d <;> simp [he]

/-- C9 witness: the amended theorem applied with the cell holding
display 5 and a request for display 7. -/
theorem xlib_context_contract_witness :
    XlibContext.get none 5 = (.ok ⟨5⟩, some ⟨5⟩) ∧
    (XlibContext.get (some ⟨5⟩) 7).1 = .panicked :=
  ⟨xlib_context_contract.1 5, xlib_context_contract.2.2.1 ⟨5⟩ 7 (by decide)⟩

/-- C10: for every constructed buffer, `row_len()` equals
`width() * bytes_per_pixel()` exactly (no alignment padding in the
stride), and the slices yielded by `rows()` exactly partition `bytes()`:
concatenating them in physical (reversed) order gives back the whole
backing buffer. -/
theorem row_len_partition (pb : PixelBuffer) (hInv : Inv pb) :
    pb.row_len = pb.width * pb.bytes_per_pixel ∧
    ∃ rs, pb.rows = some rs ∧ rs.reverse.flatten = pb.bytes := by
  have hInv2 := hInv
  obtain ⟨hw32, hh32, hc0, hc4, hcw, hcwh, hlen⟩ := hInv2
  have hrl : pb.row_len = pb.bytes_per_pixel * pb.width := u32_eq_of_lt hcw
  constructor
  · rw [hrl, Nat.mul_comm]
  · by_cases hw : pb.width = 0
    · refine ⟨[], rows_zero_width pb hInv hw, ?_⟩
      have hb : pb.bytes = [] := by
        refine List.length_eq_zero.mp ?_
        rw [hlen, hw]
        ring
      rw [hb]
      rfl
    · refine ⟨(chunksOf pb.row_len pb.bytes).reverse,
        rows_eq_of_pos pb hInv (by omega), ?_⟩
      rw [List.reverse_reverse]
      refine chunksOf_flatten pb.row_len pb.bytes ?_
      rw [hrl]
      exact Nat.mul_pos hc0 (by omega)

/-- C10 witness: the theorem applied to a 2x2 RGBA buffer. -/
theorem row_len_partition_witness :
    Inv (mkPixelBuffer 2 2 .RGBA) ∧
    ((mkPixelBuffer 2 2 .RGBA).row_len =
        (mkPixelBuffer 2 2 .RGBA).width * (mkPixelBuffer 2 2 .RGBA).bytes_per_pixel ∧
      ∃ rs, (mkPixelBuffer 2 2 .RGBA).rows = some rs ∧
        rs.reverse.flatten = (mkPixelBuffer 2 2 .RGBA).bytes) :=
  ⟨by decide, row_len_partition _ (by decide)⟩

end WinitBlit
